import Mathlib

/-!
Verification of the storage core of f2ufs: a shallow embedding of the
volume-storage layer, the repository front end and the small utility
codecs, together with theorems settling the specification claims.

Machine integers are modelled as `Nat` with explicit `% 2 ^ w` where
truncation matters.  Fallible operations return `Except Error`.
Modules of the crate that are declared but whose source file is absent
(error kinds, `Addr`/`Span`, the LRU cache, the `Fs` layer) are modelled
from the specification; each such definition says so in its doc comment.
-/

namespace F2ufs

/-- Error kinds of the crate.  Modelled from the spec: `src/error.rs` is
declared in `lib.rs` but absent from the source tree; the spec lists the
kinds `NotFound, AlreadyExists, InvalidArgument, InvalidUri,
WrongPassword, Corrupted, NotEmpty, IsDir, NotFile, ReadOnly, Closed,
InUse, NoSpace`. -/
inductive Error where
  | NotFound
  | AlreadyExists
  | InvalidArgument
  | InvalidUri
  | WrongPassword
  | Corrupted
  | NotEmpty
  | IsDir
  | NotFile
  | ReadOnly
  | Closed
  | InUse
  | NoSpace
  deriving DecidableEq, Repr, Inhabited

/-- Result type of the crate: `Result<T> = Result<T, Error>`. -/
abbrev Result (α : Type) := Except Error α

/- ------------------------------------------------------------------ -/
/- Positioned I/O loops (src/parallel_io.rs)                          -/
/- ------------------------------------------------------------------ -/

/-- Kinds of `std::io` errors that the positioned-I/O loops in
`src/parallel_io.rs` distinguish. -/
inductive IoErrorKind where
  | Interrupted
  | UnexpectedEof
  | WriteZero
  | Other
  deriving DecidableEq, Repr

/-- Outcome of a single underlying `read_at` / `write_at` system call:
either `n` bytes were transferred or an error of some kind occurred. -/
inductive SysRes where
  | ok (n : Nat)
  | err (k : IoErrorKind)
  deriving DecidableEq, Repr

/-- The `pread_exact` loop of `impl Pio for std::fs::File`
(src/parallel_io.rs).  The sequence of system-call outcomes is given as
a list; `bufLen` is the number of bytes still to be read.  The result is
`none` when the modelled outcome list is exhausted while the loop would
keep running, otherwise `some (r, remaining)` where `remaining` is the
number of unfilled buffer bytes at return.  A well-formed outcome list
has each `ok n` with `n` at most the remaining buffer size; `Nat`
subtraction truncates otherwise.  The file offset bookkeeping
(`offset += n`) does not influence control flow and is omitted. -/
def pread_exact : List SysRes → Nat → Option (Except IoErrorKind Unit × Nat)
  | _, 0 => some (.ok (), 0)
  | [], Nat.succ _ => none
  | .ok n :: rest, Nat.succ m =>
      if n = 0 then
        some (.error .UnexpectedEof, m + 1)
      else
        pread_exact rest (m + 1 - n)
  | .err k :: rest, Nat.succ m =>
      if k = .Interrupted then
        pread_exact rest (m + 1)
      else
        some (.error k, m + 1)

/-- The `pwrite_all` loop of `impl Pio for std::fs::File`
(src/parallel_io.rs), modelled like `pread_exact`; `bufLen` is the
number of bytes still to be written. -/
def pwrite_all : List SysRes → Nat → Option (Except IoErrorKind Unit × Nat)
  | _, 0 => some (.ok (), 0)
  | [], Nat.succ _ => none
  | .ok n :: rest, Nat.succ m =>
      if n = 0 then
        some (.error .WriteZero, m + 1)
      else
        pwrite_all rest (m + 1 - n)
  | .err k :: rest, Nat.succ m =>
      if k = .Interrupted then
        pwrite_all rest (m + 1)
      else
        some (.error k, m + 1)

/- ------------------------------------------------------------------ -/
/- Little-endian codec (src/util/little_endian.rs)                    -/
/- ------------------------------------------------------------------ -/

/-- Byte buffers are lists of naturals; a valid `u8` entry is below 256. -/
abbrev Bytes := List Nat

/-- The `Decode` impl for `u8`: `from[0]`. -/
def u8_read_le (f : Bytes) : Nat :=
  f.getD 0 0

/-- The `Encode` impl for `u8`: `into[0] = self`. -/
def u8_write_le (self : Nat) (into : Bytes) : Bytes :=
  into.set 0 self

/-- The `Decode` impl for `u16`. -/
def u16_read_le (f : Bytes) : Nat :=
  f.getD 0 0 ||| (f.getD 1 0) <<< 8

/-- The `Encode` impl for `u16`; `as u8` casts are `% 256`. -/
def u16_write_le (self : Nat) (into : Bytes) : Bytes :=
  (into.set 0 (self % 256)).set 1 ((self >>> 8) % 256)

/-- The `Decode` impl for `u32`. -/
def u32_read_le (f : Bytes) : Nat :=
  f.getD 0 0 ||| (f.getD 1 0) <<< 8 ||| (f.getD 2 0) <<< 16 |||
    (f.getD 3 0) <<< 24

/-- The `Encode` impl for `u32`. -/
def u32_write_le (self : Nat) (into : Bytes) : Bytes :=
  (((into.set 0 (self % 256)).set 1 ((self >>> 8) % 256)).set 2
      ((self >>> 16) % 256)).set 3 ((self >>> 24) % 256)

/-- The `Decode` impl for `u64`. -/
def u64_read_le (f : Bytes) : Nat :=
  f.getD 0 0 ||| (f.getD 1 0) <<< 8 ||| (f.getD 2 0) <<< 16 |||
    (f.getD 3 0) <<< 24 ||| (f.getD 4 0) <<< 32 ||| (f.getD 5 0) <<< 40 |||
    (f.getD 6 0) <<< 48 ||| (f.getD 7 0) <<< 56

/-- The `Encode` impl for `u64`. -/
def u64_write_le (self : Nat) (into : Bytes) : Bytes :=
  (((((((into.set 0 (self % 256)).set 1 ((self >>> 8) % 256)).set 2
      ((self >>> 16) % 256)).set 3 ((self >>> 24) % 256)).set 4
      ((self >>> 32) % 256)).set 5 ((self >>> 40) % 256)).set 6
      ((self >>> 48) % 256)).set 7 ((self >>> 56) % 256)

/-- The `Decode` impl for `u128`. -/
def u128_read_le (f : Bytes) : Nat :=
  f.getD 0 0 ||| (f.getD 1 0) <<< 8 ||| (f.getD 2 0) <<< 16 |||
    (f.getD 3 0) <<< 24 ||| (f.getD 4 0) <<< 32 ||| (f.getD 5 0) <<< 40 |||
    (f.getD 6 0) <<< 48 ||| (f.getD 7 0) <<< 56 ||| (f.getD 8 0) <<< 64 |||
    (f.getD 9 0) <<< 72 ||| (f.getD 10 0) <<< 80 ||| (f.getD 11 0) <<< 88 |||
    (f.getD 12 0) <<< 96 ||| (f.getD 13 0) <<< 104 |||
    (f.getD 14 0) <<< 112 ||| (f.getD 15 0) <<< 120

/-- The `Encode` impl for `u128`. -/
def u128_write_le (self : Nat) (into : Bytes) : Bytes :=
  (((((((((((((((into.set 0 (self % 256)).set 1 ((self >>> 8) % 256)).set 2
      ((self >>> 16) % 256)).set 3 ((self >>> 24) % 256)).set 4
      ((self >>> 32) % 256)).set 5 ((self >>> 40) % 256)).set 6
      ((self >>> 48) % 256)).set 7 ((self >>> 56) % 256)).set 8
      ((self >>> 64) % 256)).set 9 ((self >>> 72) % 256)).set 10
      ((self >>> 80) % 256)).set 11 ((self >>> 88) % 256)).set 12
      ((self >>> 96) % 256)).set 13 ((self >>> 104) % 256)).set 14
      ((self >>> 112) % 256)).set 15 ((self >>> 120) % 256)

/- helper lemmas for the codec -/

theorem bytes_getD_set_self {l : Bytes} {i : Nat} (v : Nat)
    (h : i < l.length) : (l.set i v).getD i 0 = v := by
  simp [List.getD, List.getElem?_set_self, h]

theorem bytes_getD_set_ne {l : Bytes} {i j : Nat} (v : Nat) (h : i ≠ j) :
    (l.set i v).getD j 0 = l.getD j 0 := by
  simp [List.getD, List.getElem?_set_ne h]

theorem lor_shift_eq_add (a b s : Nat) (h : a < 2 ^ s) :
    a ||| b <<< s = b * 2 ^ s + a := by
  rw [Nat.shiftLeft_eq, Nat.lor_comm, mul_comm,
    ← Nat.mul_add_lt_is_or h]

theorem le_roundtrip_u8 (buf : Bytes) (n : Nat) (hlen : 1 ≤ buf.length)
    (_hn : n < 2 ^ 8) : u8_read_le (u8_write_le n buf) = n := by
  rcases buf with _ | ⟨b0, buf⟩
  · exact absurd hlen (by simp)
  simp [u8_read_le, u8_write_le]

/-- Helper for the codec proofs: the value assembled from the first `k`
little-endian bytes of `n`. -/
def le_sum_helper (n : Nat) : Nat → Nat
  | 0 => 0
  | k + 1 => le_sum_helper n k ||| ((n >>> (8 * k)) % 256) <<< (8 * k)

theorem le_sum_helper_eq (n : Nat) : ∀ k, le_sum_helper n k = n % 2 ^ (8 * k)
  | 0 => by simp [le_sum_helper, Nat.mod_one]
  | k + 1 => by
    rw [le_sum_helper, le_sum_helper_eq n k,
      lor_shift_eq_add _ _ _ (Nat.mod_lt _ (Nat.two_pow_pos _)),
      Nat.shiftRight_eq_div_pow,
      show 8 * (k + 1) = 8 * k + 8 by ring, pow_add, Nat.mod_mul]
    norm_num
    ring

theorem le_roundtrip_u16 (buf : Bytes) (n : Nat) (hlen : 2 ≤ buf.length)
    (hn : n < 2 ^ 16) : u16_read_le (u16_write_le n buf) = n := by
  rcases buf with _ | ⟨b0, buf⟩
  · exact absurd hlen (by simp)
  rcases buf with _ | ⟨b1, buf⟩
  · exact absurd hlen (by simp)
  have h : u16_read_le (u16_write_le n (b0 :: b1 :: buf)) =
      le_sum_helper n 2 := by
    simp only [u16_read_le, u16_write_le, List.set_cons_zero,
      List.set_cons_succ, List.getD_cons_zero, List.getD_cons_succ,
      le_sum_helper]
    norm_num
  rw [h, le_sum_helper_eq n 2]
  norm_num
  omega

theorem le_roundtrip_u32 (buf : Bytes) (n : Nat) (hlen : 4 ≤ buf.length)
    (hn : n < 2 ^ 32) : u32_read_le (u32_write_le n buf) = n := by
  rcases buf with _ | ⟨b0, buf⟩
  · exact absurd hlen (by simp)
  rcases buf with _ | ⟨b1, buf⟩
  · exact absurd hlen (by simp)
  rcases buf with _ | ⟨b2, buf⟩
  · exact absurd hlen (by simp)
  rcases buf with _ | ⟨b3, buf⟩
  · exact absurd hlen (by simp)
  have h : u32_read_le (u32_write_le n (b0 :: b1 :: b2 :: b3 :: buf)) =
      le_sum_helper n 4 := by
    simp only [u32_read_le, u32_write_le, List.set_cons_zero,
      List.set_cons_succ, List.getD_cons_zero, List.getD_cons_succ,
      le_sum_helper]
    norm_num
  rw [h, le_sum_helper_eq n 4]
  norm_num
  omega

theorem le_roundtrip_u64 (buf : Bytes) (n : Nat) (hlen : 8 ≤ buf.length)
    (hn : n < 2 ^ 64) : u64_read_le (u64_write_le n buf) = n := by
  rcases buf with _ | ⟨b0, buf⟩
  · exact absurd hlen (by simp)
  rcases buf with _ | ⟨b1, buf⟩
  · exact absurd hlen (by simp)
  rcases buf with _ | ⟨b2, buf⟩
  · exact absurd hlen (by simp)
  rcases buf with _ | ⟨b3, buf⟩
  · exact absurd hlen (by simp)
  rcases buf with _ | ⟨b4, buf⟩
  · exact absurd hlen (by simp)
  rcases buf with _ | ⟨b5, buf⟩
  · exact absurd hlen (by simp)
  rcases buf with _ | ⟨b6, buf⟩
  · exact absurd hlen (by simp)
  rcases buf with _ | ⟨b7, buf⟩
  · exact absurd hlen (by simp)
  have h : u64_read_le (u64_write_le n (b0 :: b1 :: b2 :: b3 :: b4 :: b5 :: b6 :: b7 :: buf)) =
      le_sum_helper n 8 := by
    simp only [u64_read_le, u64_write_le, List.set_cons_zero,
      List.set_cons_succ, List.getD_cons_zero, List.getD_cons_succ,
      le_sum_helper]
    norm_num
  rw [h, le_sum_helper_eq n 8]
  norm_num
  omega

theorem le_roundtrip_u128 (buf : Bytes) (n : Nat) (hlen : 16 ≤ buf.length)
    (hn : n < 2 ^ 128) : u128_read_le (u128_write_le n buf) = n := by
  rcases buf with _ | ⟨b0, buf⟩
  · exact absurd hlen (by simp)
  rcases buf with _ | ⟨b1, buf⟩
  · exact absurd hlen (by simp)
  rcases buf with _ | ⟨b2, buf⟩
  · exact absurd hlen (by simp)
  rcases buf with _ | ⟨b3, buf⟩
  · exact absurd hlen (by simp)
  rcases buf with _ | ⟨b4, buf⟩
  · exact absurd hlen (by simp)
  rcases buf with _ | ⟨b5, buf⟩
  · exact absurd hlen (by simp)
  rcases buf with _ | ⟨b6, buf⟩
  · exact absurd hlen (by simp)
  rcases buf with _ | ⟨b7, buf⟩
  · exact absurd hlen (by simp)
  rcases buf with _ | ⟨b8, buf⟩
  · exact absurd hlen (by simp)
  rcases buf with _ | ⟨b9, buf⟩
  · exact absurd hlen (by simp)
  rcases buf with _ | ⟨b10, buf⟩
  · exact absurd hlen (by simp)
  rcases buf with _ | ⟨b11, buf⟩
  · exact absurd hlen (by simp)
  rcases buf with _ | ⟨b12, buf⟩
  · exact absurd hlen (by simp)
  rcases buf with _ | ⟨b13, buf⟩
  · exact absurd hlen (by simp)
  rcases buf with _ | ⟨b14, buf⟩
  · exact absurd hlen (by simp)
  rcases buf with _ | ⟨b15, buf⟩
  · exact absurd hlen (by simp)
  have h : u128_read_le (u128_write_le n (b0 :: b1 :: b2 :: b3 :: b4 :: b5 :: b6 :: b7 :: b8 :: b9 :: b10 :: b11 :: b12 :: b13 :: b14 :: b15 :: buf)) =
      le_sum_helper n 16 := by
    simp only [u128_read_le, u128_write_le, List.set_cons_zero,
      List.set_cons_succ, List.getD_cons_zero, List.getD_cons_succ,
      le_sum_helper]
    norm_num
  rw [h, le_sum_helper_eq n 16]
  norm_num
  omega

theorem pread_exact_shape (outs : List SysRes) : ∀ len r rem,
    pread_exact outs len = some (r, rem) →
    (r = .ok () ∧ rem = 0) ∨ ∃ k, r = .error k ∧ k ≠ IoErrorKind.Interrupted := by
  induction outs with
  | nil =>
    intro len r rem h
    match len, h with
    | 0, h =>
      simp [pread_exact] at h
      exact Or.inl ⟨h.1.symm, h.2.symm⟩
    | Nat.succ m, h => simp [pread_exact] at h
  | cons o rest ih =>
    intro len r rem h
    match len, h with
    | 0, h =>
      simp [pread_exact] at h
      exact Or.inl ⟨h.1.symm, h.2.symm⟩
    | Nat.succ m, h =>
      match o with
      | .ok n =>
        by_cases hn : n = 0
        · simp [pread_exact, hn] at h
          exact Or.inr ⟨.UnexpectedEof, h.1.symm, by simp⟩
        · simp only [pread_exact, if_neg hn] at h
          exact ih _ _ _ h
      | .err k =>
        by_cases hk : k = IoErrorKind.Interrupted
        · simp only [pread_exact, if_pos hk] at h
          exact ih _ _ _ h
        · simp only [pread_exact, if_neg hk] at h
          simp at h
          exact Or.inr ⟨k, h.1.symm, hk⟩

theorem pwrite_all_shape (outs : List SysRes) : ∀ len r rem,
    pwrite_all outs len = some (r, rem) →
    (r = .ok () ∧ rem = 0) ∨ ∃ k, r = .error k ∧ k ≠ IoErrorKind.Interrupted := by
  induction outs with
  | nil =>
    intro len r rem h
    match len, h with
    | 0, h =>
      simp [pwrite_all] at h
      exact Or.inl ⟨h.1.symm, h.2.symm⟩
    | Nat.succ m, h => simp [pwrite_all] at h
  | cons o rest ih =>
    intro len r rem h
    match len, h with
    | 0, h =>
      simp [pwrite_all] at h
      exact Or.inl ⟨h.1.symm, h.2.symm⟩
    | Nat.succ m, h =>
      match o with
      | .ok n =>
        by_cases hn : n = 0
        · simp [pwrite_all, hn] at h
          exact Or.inr ⟨.WriteZero, h.1.symm, by simp⟩
        · simp only [pwrite_all, if_neg hn] at h
          exact ih _ _ _ h
      | .err k =>
        by_cases hk : k = IoErrorKind.Interrupted
        · simp only [pwrite_all, if_pos hk] at h
          exact ih _ _ _ h
        · simp only [pwrite_all, if_neg hk] at h
          simp at h
          exact Or.inr ⟨k, h.1.symm, hk⟩

/-- C8: the positioned-I/O loops retry on `Interrupted` and on nothing
else: `pread_exact` and `pwrite_all` never return `Interrupted` to the
caller; `pread_exact` either fills the whole destination buffer
(remaining count 0 on success) or returns an error, and returns
`UnexpectedEof` when the underlying file reports end of data early;
`pwrite_all` either writes the whole source buffer or returns an error
(`WriteZero` when the underlying write makes no progress); an
`Interrupted` outcome is retried, any other error outcome is returned
unchanged. -/
theorem pio_retry_contract :
    (∀ outs len r rem, pread_exact outs len = some (r, rem) →
      r ≠ Except.error IoErrorKind.Interrupted) ∧
    (∀ outs len rem, pread_exact outs len = some (.ok (), rem) → rem = 0) ∧
    (∀ outs m, pread_exact (.err .Interrupted :: outs) (m + 1) =
      pread_exact outs (m + 1)) ∧
    (∀ outs m k, k ≠ IoErrorKind.Interrupted →
      pread_exact (.err k :: outs) (m + 1) = some (.error k, m + 1)) ∧
    (∀ outs m, pread_exact (.ok 0 :: outs) (m + 1) =
      some (.error .UnexpectedEof, m + 1)) ∧
    (∀ outs len r rem, pwrite_all outs len = some (r, rem) →
      r ≠ Except.error IoErrorKind.Interrupted) ∧
    (∀ outs len rem, pwrite_all outs len = some (.ok (), rem) → rem = 0) ∧
    (∀ outs m, pwrite_all (.err .Interrupted :: outs) (m + 1) =
      pwrite_all outs (m + 1)) ∧
    (∀ outs m k, k ≠ IoErrorKind.Interrupted →
      pwrite_all (.err k :: outs) (m + 1) = some (.error k, m + 1)) ∧
    (∀ outs m, pwrite_all (.ok 0 :: outs) (m + 1) =
      some (.error .WriteZero, m + 1)) := by
  refine ⟨?_, ?_, ?_, ?_, ?_, ?_, ?_, ?_, ?_, ?_⟩
  · intro outs len r rem h hr
    rcases pread_exact_shape outs len r rem h with ⟨hok, _⟩ | ⟨k, hk, hne⟩
    · rw [hok] at hr; exact Except.noConfusion hr
    · rw [hk] at hr
      exact hne (Except.error.inj hr)
  · intro outs len rem h
    rcases pread_exact_shape outs len _ rem h with ⟨_, h0⟩ | ⟨k, hk, _⟩
    · exact h0
    · exact Except.noConfusion hk
  · intro outs m
    simp [pread_exact]
  · intro outs m k hk
    simp [pread_exact, hk]
  · intro outs m
    simp [pread_exact]
  · intro outs len r rem h hr
    rcases pwrite_all_shape outs len r rem h with ⟨hok, _⟩ | ⟨k, hk, hne⟩
    · rw [hok] at hr; exact Except.noConfusion hr
    · rw [hk] at hr
      exact hne (Except.error.inj hr)
  · intro outs len rem h
    rcases pwrite_all_shape outs len _ rem h with ⟨_, h0⟩ | ⟨k, hk, _⟩
    · exact h0
    · exact Except.noConfusion hk
  · intro outs m
    simp [pwrite_all]
  · intro outs m k hk
    simp [pwrite_all, hk]
  · intro outs m
    simp [pwrite_all]

/-- Witness for C8: the contract applied to concrete system-call
outcome sequences. -/
theorem pio_retry_contract_witness :
    (Except.ok () : Except IoErrorKind Unit) ≠
      Except.error IoErrorKind.Interrupted ∧
    (0 : Nat) = 0 ∧
    pread_exact [.err .Interrupted, .ok 3] (2 + 1) =
      pread_exact [.ok 3] (2 + 1) ∧
    pread_exact [.err .Other] (1 + 1) = some (.error .Other, 1 + 1) ∧
    pread_exact [.ok 0] (1 + 1) = some (.error .UnexpectedEof, 1 + 1) ∧
    (Except.ok () : Except IoErrorKind Unit) ≠
      Except.error IoErrorKind.Interrupted ∧
    (0 : Nat) = 0 ∧
    pwrite_all [.err .Interrupted, .ok 2] (1 + 1) =
      pwrite_all [.ok 2] (1 + 1) ∧
    pwrite_all [.err .Other] (1 + 1) = some (.error .Other, 1 + 1) ∧
    pwrite_all [.ok 0] (1 + 1) = some (.error .WriteZero, 1 + 1) :=
  ⟨pio_retry_contract.1 [.err .Interrupted, .ok 3] 3 (.ok ()) 0 rfl,
    pio_retry_contract.2.1 [.err .Interrupted, .ok 3] 3 0 rfl,
    pio_retry_contract.2.2.1 [.ok 3] 2,
    pio_retry_contract.2.2.2.1 [] 1 .Other (by decide),
    pio_retry_contract.2.2.2.2.1 [] 1,
    pio_retry_contract.2.2.2.2.2.1 [.err .Interrupted, .ok 2] 2 (.ok ()) 0
      rfl,
    pio_retry_contract.2.2.2.2.2.2.1 [.err .Interrupted, .ok 2] 2 0 rfl,
    pio_retry_contract.2.2.2.2.2.2.2.1 [.ok 2] 1,
    pio_retry_contract.2.2.2.2.2.2.2.2.1 [] 1 .Other (by decide),
    pio_retry_contract.2.2.2.2.2.2.2.2.2 [] 1⟩

/-- C9: the little-endian codec round-trips: for each unsigned width
`u8, u16, u32, u64, u128`, every value of that width and every buffer of
at least the type's byte size, `read` after `write` returns the value
written. -/
theorem little_endian_roundtrip :
    (∀ (buf : Bytes) (n : Nat), 1 ≤ buf.length → n < 2 ^ 8 →
      u8_read_le (u8_write_le n buf) = n) ∧
    (∀ (buf : Bytes) (n : Nat), 2 ≤ buf.length → n < 2 ^ 16 →
      u16_read_le (u16_write_le n buf) = n) ∧
    (∀ (buf : Bytes) (n : Nat), 4 ≤ buf.length → n < 2 ^ 32 →
      u32_read_le (u32_write_le n buf) = n) ∧
    (∀ (buf : Bytes) (n : Nat), 8 ≤ buf.length → n < 2 ^ 64 →
      u64_read_le (u64_write_le n buf) = n) ∧
    (∀ (buf : Bytes) (n : Nat), 16 ≤ buf.length → n < 2 ^ 128 →
      u128_read_le (u128_write_le n buf) = n) :=
  ⟨le_roundtrip_u8, le_roundtrip_u16, le_roundtrip_u32, le_roundtrip_u64,
    le_roundtrip_u128⟩

/-- Witness for C9: the round-trip at concrete values and buffers. -/
theorem little_endian_roundtrip_witness :
    u8_read_le (u8_write_le 171 [0]) = 171 ∧
    u16_read_le (u16_write_le 43981 [0, 0]) = 43981 ∧
    u32_read_le (u32_write_le 305419896 [0, 0, 0, 0]) = 305419896 ∧
    u64_read_le (u64_write_le 1311768467463790320 (List.replicate 8 0)) =
      1311768467463790320 ∧
    u128_read_le (u128_write_le (2 ^ 127 + 12345) (List.replicate 16 0)) =
      2 ^ 127 + 12345 :=
  ⟨little_endian_roundtrip.1 [0] 171 (by decide) (by decide),
    little_endian_roundtrip.2.1 [0, 0] 43981 (by decide) (by decide),
    little_endian_roundtrip.2.2.1 [0, 0, 0, 0] 305419896 (by decide)
      (by decide),
    little_endian_roundtrip.2.2.2.1 (List.replicate 8 0) 1311768467463790320
      (by decide) (by decide),
    little_endian_roundtrip.2.2.2.2 (List.replicate 16 0) (2 ^ 127 + 12345)
      (by decide) (by decide)⟩

/- ------------------------------------------------------------------ -/
/- Volume storage layer (src/volume/storage/storage.rs)               -/
/- ------------------------------------------------------------------ -/

/-- Block size in bytes (`src/lib.rs`): `BLK_SIZE = 8 * 1024`. -/
def BLK_SIZE : Nat := 8 * 1024

/-- Blocks per frame (`src/lib.rs`): `BLKS_PER_FRAME = 16`. -/
def BLKS_PER_FRAME : Nat := 16

/-- Frame size in bytes (`src/lib.rs`). -/
def FRAME_SIZE : Nat := BLKS_PER_FRAME * BLK_SIZE

/-- Entity id.  Modelled from the spec: `Eid` (src/trans/eid.rs is
absent from the tree) is an opaque fixed-width identifier with equality;
a natural number stands in for the 32-byte value. -/
abbrev Eid := Nat

/-- Contiguous block range.  Modelled from the spec:
`src/volume/address.rs` is declared in `volume/mod.rs` but absent; the
spec defines `Span = (begin_block: u64, count: u32)`, a half-open
contiguous range.  `storage.rs` accesses the fields as `span.begin` and
`span.cnt`. -/
structure Span where
  begin : Nat
  cnt : Nat
  deriving DecidableEq, Repr

/-- Span with its offset inside the entity.  Modelled from the spec:
`LocSpan { span: Span, offset_in_entity: u64 }`. -/
structure LocSpan where
  span : Span
  offset_in_entity : Nat
  deriving DecidableEq, Repr

/-- Entity address.  Modelled from the spec: an ordered list of
`LocSpan`; `storage.rs` iterates it with `addr.iter()`. -/
structure Addr where
  loc_spans : List LocSpan
  deriving DecidableEq, Repr

/-- Whether a block id lies inside a span. -/
def Span.covers (s : Span) (b : Nat) : Bool :=
  decide (s.begin ≤ b) && decide (b < s.begin + s.cnt)

/-- Association-list lookup used by the cache and depot models. -/
def assoc_find {K V : Type} [DecidableEq K] : List (K × V) → K → Option V
  | [], _ => none
  | e :: rest, k => if e.1 = k then some e.2 else assoc_find rest k

/-- Remove every binding of a key from an association list. -/
def assoc_erase {K V : Type} [DecidableEq K] (l : List (K × V)) (k : K) :
    List (K × V) :=
  l.filter (fun e => decide (e.1 ≠ k))

/-- Bounded LRU cache.  Modelled from the spec: `src/util/lru.rs` is
declared in `util/mod.rs` but absent; the spec describes a bounded LRU
with a pin checker, count-weighted for addresses and byte-weighted for
frames.  Entries are kept most-recently-used first; eviction drops from
the tail.  The claims settled here use only insertion, lookup-refresh
and removal, where the weighting does not matter, and no entry is
pinned. -/
structure Lru (K V : Type) where
  entries : List (K × V)
  capacity : Nat
  deriving DecidableEq, Repr

/-- Fresh empty cache of a given capacity. -/
def Lru.new {K V : Type} (cap : Nat) : Lru K V :=
  { entries := [], capacity := cap }

/-- Cache lookup; on a hit the entry moves to the front (most recently
used), on a miss the cache is unchanged. -/
def Lru.get_refresh {K V : Type} [DecidableEq K] (c : Lru K V) (k : K) :
    Option V × Lru K V :=
  match assoc_find c.entries k with
  | some v =>
      (some v, { c with entries := (k, v) :: assoc_erase c.entries k })
  | none => (none, c)

/-- Cache insertion: the new entry becomes most recently used and the
least recently used entries beyond the capacity are evicted. -/
def Lru.insert {K V : Type} [DecidableEq K] (c : Lru K V) (k : K) (v : V) :
    Lru K V :=
  { c with
    entries := ((k, v) :: assoc_erase c.entries k).take c.capacity }

/-- Cache removal. -/
def Lru.remove {K V : Type} [DecidableEq K] (c : Lru K V) (k : K) :
    Lru K V :=
  { c with entries := assoc_erase c.entries k }

/-- In-memory model of the depot (the `Storable` contract of
`src/volume/storage/mod.rs`): entity addresses are content-neutral byte
strings keyed by id, and block storage is the set of live block ids.
The file-backed depot performs real I/O; the contract makes the depot a
key-value store, which is what this model captures. -/
structure Depot where
  addrs : List (Eid × Bytes)
  blocks : List Nat
  deriving DecidableEq, Repr

/-- The `Storable::get_address`: `NotFound` when the id has no stored
address. -/
def Depot.get_address (d : Depot) (id : Eid) : Result Bytes :=
  match assoc_find d.addrs id with
  | some buf => .ok buf
  | none => .error .NotFound

/-- The `Storable::put_address`: store or overwrite. -/
def Depot.put_address (d : Depot) (id : Eid) (buf : Bytes) : Depot :=
  { d with addrs := (id, buf) :: assoc_erase d.addrs id }

/-- The `Storable::del_address`. -/
def Depot.del_address (d : Depot) (id : Eid) : Depot :=
  { d with addrs := assoc_erase d.addrs id }

/-- The `Storable::del_blocks`: the blocks of the span stop existing. -/
def Depot.del_blocks (d : Depot) (s : Span) : Depot :=
  { d with blocks := d.blocks.filter (fun b => ! s.covers b) }

/-- Depot calls issued by the storage layer, recorded in program order
so that ordering claims about the depot traffic can be stated. -/
inductive DepotOp where
  | getAddress (id : Eid)
  | putAddress (id : Eid)
  | delAddress (id : Eid)
  | delBlocks (s : Span)
  deriving DecidableEq, Repr, Inhabited

/-- The `Storage` struct of `src/volume/storage/storage.rs`: depot,
decrypted frame cache (keyed by the first block index of the frame) and
entity address cache.  The allocator and crypto context are carried by
the Rust struct as well; the allocator is unused by the modelled
operations and the crypto functions are passed explicitly. -/
structure Storage where
  depot : Depot
  frame_cache : Lru Nat Bytes
  addr_cache : Lru Eid Addr
  deriving DecidableEq, Repr

/-- The `Storage::FRAME_CACHE_SIZE = 4 * 1024 * 1024`. -/
def FRAME_CACHE_SIZE : Nat := 4 * 1024 * 1024

/-- The `Storage::FRAME_CACHE_THRESHOLD = 512 * 1024`. -/
def FRAME_CACHE_THRESHOLD : Nat := 512 * 1024

/-- The `Storage::ADDRESS_CACHE_SIZE = 64`. -/
def ADDRESS_CACHE_SIZE : Nat := 64

/-- The cache state built by `Storage::new`: an empty frame cache of
`FRAME_CACHE_SIZE` and an empty address cache of `ADDRESS_CACHE_SIZE`,
over an empty depot. -/
def Storage.mk_new : Storage :=
  { depot := { addrs := [], blocks := [] },
    frame_cache := Lru.new FRAME_CACHE_SIZE,
    addr_cache := Lru.new ADDRESS_CACHE_SIZE }

/-- Scheme dispatch of `Storage::new`: a `file://` URI yields a
file-backed depot rooted at the rest of the URI. -/
inductive DepotKind where
  | file (path : List Char)
  deriving DecidableEq, Repr

/-- The character sequence `file://`. -/
def file_scheme : List Char := ['f', 'i', 'l', 'e', ':', '/', '/']

/-- The `str::starts_with` on character lists. -/
def starts_with : List Char → List Char → Bool
  | _, [] => true
  | [], _ :: _ => false
  | c :: s, p :: ps => c = p && starts_with s ps

/-- The `Storage::new` (src/volume/storage/storage.rs lines 60-79): a URI
beginning with `file://` constructs a `FileStorage` depot on the path
after the scheme together with fresh caches; every other URI is
rejected with `InvalidUri`. -/
def Storage.new (uri : List Char) : Result (DepotKind × Storage) :=
  if starts_with uri file_scheme then
    .ok (.file (uri.drop 7), Storage.mk_new)
  else
    .error .InvalidUri

/-- The `Storage::get_address`: consult the address cache first; on a miss,
fetch the encrypted bytes from the depot, decrypt (`dec`), deserialize
(`deser`) and fill the cache.  The third component records the depot
calls made.  `dec` and `deser` are the crypto/serde pipeline, passed as
functions because `util/crypto.rs` is absent from the tree. -/
def Storage.get_address (dec : Bytes → Result Bytes)
    (deser : Bytes → Result Addr) (st : Storage) (id : Eid) :
    Result Addr × Storage × List DepotOp :=
  match st.addr_cache.get_refresh id with
  | (some addr, cache) => (.ok addr, { st with addr_cache := cache }, [])
  | (none, _) =>
    match st.depot.get_address id with
    | .error e => (.error e, st, [.getAddress id])
    | .ok buf =>
      match dec buf with
      | .error e => (.error e, st, [.getAddress id])
      | .ok plain =>
        match deser plain with
        | .error e => (.error e, st, [.getAddress id])
        | .ok addr =>
            (.ok addr,
              { st with addr_cache := st.addr_cache.insert id addr },
              [.getAddress id])

/-- The `Storage::put_address`: serialize (`ser`) and encrypt (`enc`) the
address, write it to the depot and insert it into the address cache. -/
def Storage.put_address (ser : Addr → Bytes) (enc : Bytes → Result Bytes)
    (st : Storage) (id : Eid) (addr : Addr) :
    Result Unit × Storage × List DepotOp :=
  match enc (ser addr) with
  | .error e => (.error e, st, [])
  | .ok buf =>
      (.ok (),
        { st with
          depot := st.depot.put_address id buf,
          addr_cache := st.addr_cache.insert id addr },
        [.putAddress id])

/-- The frame-cache eviction loop inside
`Storage::remove_address_blocks`: walk the span in frame-sized steps,
dropping the cached frame whose first block is at each frame boundary.
The loop advances by `min (end_idx - inaddr_idx) (BLKS_PER_FRAME -
offset)` per iteration; the fuel argument starts at
`end_idx - inaddr_idx`, which bounds the iteration count since every
step is at least 1, so the recursion is exactly the source's `while`
loop. -/
def remove_frames_fuel : Nat → Lru Nat Bytes → Nat → Nat → Nat →
    Lru Nat Bytes × Nat
  | 0, fc, inaddr, _, _ => (fc, inaddr)
  | fuel + 1, fc, inaddr, blk, endIdx =>
    if inaddr < endIdx then
      remove_frames_fuel fuel
        (if inaddr % BLKS_PER_FRAME = 0 then fc.remove blk else fc)
        (inaddr + min (endIdx - inaddr)
          (BLKS_PER_FRAME - inaddr % BLKS_PER_FRAME))
        (blk + min (endIdx - inaddr)
          (BLKS_PER_FRAME - inaddr % BLKS_PER_FRAME))
        endIdx
    else (fc, inaddr)

/-- The `while` loop of `Storage::remove_address_blocks` for one
location span, returning the new frame cache and the final
`inaddr_idx`. -/
def remove_frames (fc : Lru Nat Bytes) (inaddr blk endIdx : Nat) :
    Lru Nat Bytes × Nat :=
  remove_frames_fuel (endIdx - inaddr) fc inaddr blk endIdx

/-- The `for` loop of `Storage::remove_address_blocks` over the
location spans: delete each span's blocks from the depot and drop the
overlapped frames from the frame cache; `inaddr_idx` threads through
the whole address. -/
def remove_blocks_loop (st : Storage) (inaddr : Nat) :
    List LocSpan → Storage × Nat × List DepotOp
  | [] => (st, inaddr, [])
  | ls :: rest =>
      let st1 := { st with depot := st.depot.del_blocks ls.span }
      let fcr :=
        remove_frames st1.frame_cache inaddr ls.span.begin
          (inaddr + ls.span.cnt)
      let r :=
        remove_blocks_loop { st1 with frame_cache := fcr.1 } fcr.2 rest
      (r.1, r.2.1, .delBlocks ls.span :: r.2.2)

/-- The `Storage::remove_address_blocks` (src/volume/storage/storage.rs
lines 162-184).  In the in-memory depot model `del_blocks` cannot fail,
so the `Result` is always `Ok`. -/
def Storage.remove_address_blocks (st : Storage) (addr : Addr) :
    Storage × List DepotOp :=
  let r := remove_blocks_loop st 0 addr.loc_spans
  (r.1, r.2.2)

/-- The `Storage::write_new_address` (src/volume/storage/storage.rs lines
186-198): look up the old address; if it exists, remove all of its
blocks, then write the new address; a `NotFound` lookup skips the
removal; any other lookup error aborts. -/
def Storage.write_new_address (ser : Addr → Bytes)
    (enc : Bytes → Result Bytes) (dec : Bytes → Result Bytes)
    (deser : Bytes → Result Addr) (st : Storage) (id : Eid) (addr : Addr) :
    Result Unit × Storage × List DepotOp :=
  match Storage.get_address dec deser st id with
  | (.ok old_addr, st1, tr1) =>
      let r2 := st1.remove_address_blocks old_addr
      match Storage.put_address ser enc r2.1 id addr with
      | (r, st3, tr3) => (r, st3, tr1 ++ r2.2 ++ tr3)
  | (.error e, st1, tr1) =>
      if e = Error.NotFound then
        match Storage.put_address ser enc st1 id addr with
        | (r, st2, tr2) => (r, st2, tr1 ++ tr2)
      else (.error e, st1, tr1)

/-- The `Storage::del` (src/volume/storage/storage.rs lines 200-216): a
`NotFound` address lookup returns `Ok` without touching anything; an
existing address has its blocks removed, then the address is deleted
from the depot and the cache. -/
def Storage.del (dec : Bytes → Result Bytes)
    (deser : Bytes → Result Addr) (st : Storage) (id : Eid) :
    Result Unit × Storage × List DepotOp :=
  match Storage.get_address dec deser st id with
  | (.ok addr, st1, tr1) =>
      let r2 := st1.remove_address_blocks addr
      let st3 :=
        { r2.1 with
          depot := r2.1.depot.del_address id,
          addr_cache := r2.1.addr_cache.remove id }
      (.ok (), st3, tr1 ++ r2.2 ++ [.delAddress id])
  | (.error e, st1, tr1) =>
      if e = Error.NotFound then (.ok (), st1, tr1)
      else (.error e, st1, tr1)

/-- Recognizer for block-deletion depot calls. -/
def is_del_blocks : DepotOp → Bool
  | .delBlocks _ => true
  | _ => false

/-- Recognizer for address-write depot calls. -/
def is_put_address : DepotOp → Bool
  | .putAddress _ => true
  | _ => false

/-- The order asserted by the spec for `write_new_address`: every
block-span release happens only after the new address write
(write-new-before-delete-old). -/
def releases_after_write (tr : List DepotOp) : Prop :=
  ∀ i < tr.length, ∀ j < tr.length,
    is_del_blocks (tr.getD i default) = true →
    is_put_address (tr.getD j default) = true → j < i

/-- The order the code actually implements: every block-span release
happens before the new address write (delete-old-before-write-new). -/
def releases_before_write (tr : List DepotOp) : Prop :=
  ∀ i < tr.length, ∀ j < tr.length,
    is_del_blocks (tr.getD i default) = true →
    is_put_address (tr.getD j default) = true → i < j

/- helper lemmas about the storage model -/

theorem getD_mem_of_lt {α : Type} [Inhabited α] (l : List α) (i : Nat)
    (h : i < l.length) : l.getD i default ∈ l := by
  rw [List.getD_eq_getElem l default h]
  exact List.getElem_mem h

theorem assoc_find_erase_self {K V : Type} [DecidableEq K]
    (l : List (K × V)) (k : K) : assoc_find (assoc_erase l k) k = none := by
  induction l with
  | nil => rfl
  | cons e rest ih =>
    by_cases he : e.1 = k
    · simpa [assoc_erase, he] using ih
    · simpa [assoc_erase, assoc_find, he] using ih

theorem get_address_trace (dec : Bytes → Result Bytes)
    (deser : Bytes → Result Addr) (st : Storage) (id : Eid) :
    (Storage.get_address dec deser st id).2.2 = [] ∨
    (Storage.get_address dec deser st id).2.2 = [.getAddress id] := by
  rcases hgr : st.addr_cache.get_refresh id with ⟨o, c⟩
  rcases o with _ | addr
  · rcases hda : st.depot.get_address id with e | buf
    · simp [Storage.get_address, hgr, hda]
    · rcases hdc : dec buf with e | plain
      · simp [Storage.get_address, hgr, hda, hdc]
      · rcases hds : deser plain with e | addr
        · simp [Storage.get_address, hgr, hda, hdc, hds]
        · simp [Storage.get_address, hgr, hda, hdc, hds]
  · simp [Storage.get_address, hgr]

theorem get_address_error_state (dec : Bytes → Result Bytes)
    (deser : Bytes → Result Addr) (st : Storage) (id : Eid) (e : Error)
    (h : (Storage.get_address dec deser st id).1 = .error e) :
    (Storage.get_address dec deser st id).2.1 = st := by
  rcases hgr : st.addr_cache.get_refresh id with ⟨o, c⟩
  rcases o with _ | addr
  · rcases hda : st.depot.get_address id with e2 | buf
    · simp [Storage.get_address, hgr, hda]
    · rcases hdc : dec buf with e2 | plain
      · simp [Storage.get_address, hgr, hda, hdc]
      · rcases hds : deser plain with e2 | addr
        · simp [Storage.get_address, hgr, hda, hdc, hds]
        · simp [Storage.get_address, hgr, hda, hdc, hds] at h
  · simp [Storage.get_address, hgr] at h

theorem put_address_trace (ser : Addr → Bytes) (enc : Bytes → Result Bytes)
    (st : Storage) (id : Eid) (addr : Addr) :
    (Storage.put_address ser enc st id addr).2.2 = [] ∨
    (Storage.put_address ser enc st id addr).2.2 = [.putAddress id] := by
  rcases henc : enc (ser addr) with e | buf
  · simp [Storage.put_address, henc]
  · simp [Storage.put_address, henc]

theorem remove_blocks_loop_trace :
    ∀ (l : List LocSpan) (st : Storage) (inaddr : Nat),
      ∀ op ∈ (remove_blocks_loop st inaddr l).2.2, is_del_blocks op = true
  | [], st, inaddr => by simp [remove_blocks_loop]
  | ls :: rest, st, inaddr => by
    intro op hop
    simp only [remove_blocks_loop, List.mem_cons] at hop
    rcases hop with h | h
    · rw [h]; rfl
    · exact remove_blocks_loop_trace rest _ _ op h

theorem del_blocks_not_put (op : DepotOp) (h : is_del_blocks op = true) :
    is_put_address op = false := by
  cases op <;> simp_all [is_del_blocks, is_put_address]

theorem rbw_of_split (l1 l2 : List DepotOp)
    (h1 : ∀ op ∈ l1, is_put_address op = false)
    (h2 : ∀ op ∈ l2, is_del_blocks op = false) :
    releases_before_write (l1 ++ l2) := by
  intro i hi j hj hdel hput
  rcases Nat.lt_or_ge j l1.length with hj1 | hj1
  · rw [List.getD_append _ _ _ _ hj1] at hput
    have := h1 _ (getD_mem_of_lt l1 j hj1)
    rw [this] at hput
    exact absurd hput (by simp)
  · rcases Nat.lt_or_ge i l1.length with hi1 | hi1
    · omega
    · rw [List.getD_append_right _ _ _ _ hi1] at hdel
      have hlen : i - l1.length < l2.length := by
        rw [List.length_append] at hi; omega
      have := h2 _ (getD_mem_of_lt l2 _ hlen)
      rw [this] at hdel
      exact absurd hdel (by simp)

/-- C1 counterexample: in a concrete storage state where entity `0`
already has the stored address `{span (0, 1)}`, rewriting it to the
address `{span (1, 1)}` issues the depot calls
`[delBlocks (0, 1), putAddress 0]`: the old span is released *before*
the new address is written, so the write-new-before-delete-old order
claimed by the spec does not hold. -/
theorem write_new_address_order_cex :
    ¬ releases_after_write
        (Storage.write_new_address (fun _ => ([] : Bytes))
          (fun b => .ok b) (fun b => .ok b) (fun _ => .error .Corrupted)
          { depot := { addrs := [(0, [0])], blocks := [0] },
            frame_cache := Lru.new FRAME_CACHE_SIZE,
            addr_cache :=
              { entries := [(0, ⟨[⟨⟨0, 1⟩, 0⟩]⟩)],
                capacity := ADDRESS_CACHE_SIZE } }
          0 ⟨[⟨⟨1, 1⟩, 0⟩]⟩).2.2 := by
  unfold releases_after_write
  decide

/-- C1 (amended): for every entity id, `Storage::write_new_address`
releases the prior address's block spans *before* the new address is
written to the depot (delete-old-before-write-new): in its depot call
trace every block-span deletion precedes every address write. -/
theorem write_new_address_releases_before_write (ser : Addr → Bytes)
    (enc : Bytes → Result Bytes) (dec : Bytes → Result Bytes)
    (deser : Bytes → Result Addr) (st : Storage) (id : Eid) (addr : Addr) :
    releases_before_write
      (Storage.write_new_address ser enc dec deser st id addr).2.2 := by
  rcases hg : Storage.get_address dec deser st id with ⟨r, st1, tr1⟩
  have htr1 : tr1 = [] ∨ tr1 = [.getAddress id] := by
    have h := get_address_trace dec deser st id
    rw [hg] at h
    exact h
  have htr1p : ∀ op ∈ tr1, is_put_address op = false := by
    rcases htr1 with h | h <;> subst h <;> simp [is_put_address]
  have htr1d : ∀ op ∈ tr1, is_del_blocks op = false := by
    rcases htr1 with h | h <;> subst h <;> simp [is_del_blocks]
  rcases r with e | old_addr
  · by_cases he : e = Error.NotFound
    · subst he
      rcases hp : Storage.put_address ser enc st1 id addr with ⟨r2, st2, tr2⟩
      have htr2 : tr2 = [] ∨ tr2 = [.putAddress id] := by
        have h := put_address_trace ser enc st1 id addr
        rw [hp] at h
        exact h
      have htr2d : ∀ op ∈ tr2, is_del_blocks op = false := by
        rcases htr2 with h | h <;> subst h <;> simp [is_del_blocks]
      have hw : (Storage.write_new_address ser enc dec deser st id
          addr).2.2 = tr1 ++ tr2 := by
        unfold Storage.write_new_address
        rw [hg]
        simp [hp]
      rw [hw]
      exact rbw_of_split tr1 tr2 htr1p htr2d
    · have hw : (Storage.write_new_address ser enc dec deser st id
          addr).2.2 = tr1 := by
        unfold Storage.write_new_address
        rw [hg]
        simp [he]
      rw [hw]
      have := rbw_of_split tr1 [] htr1p (by simp)
      simpa using this
  · rcases hp : Storage.put_address ser enc
        (st1.remove_address_blocks old_addr).1 id addr with ⟨r3, st3, tr3⟩
    have htr3 : tr3 = [] ∨ tr3 = [.putAddress id] := by
      have h := put_address_trace ser enc
        (st1.remove_address_blocks old_addr).1 id addr
      rw [hp] at h
      exact h
    have htr3d : ∀ op ∈ tr3, is_del_blocks op = false := by
      rcases htr3 with h | h <;> subst h <;> simp [is_del_blocks]
    have hw : (Storage.write_new_address ser enc dec deser st id
        addr).2.2 = tr1 ++ (st1.remove_address_blocks old_addr).2 ++ tr3 := by
      unfold Storage.write_new_address
      rw [hg]
      simp [hp]
    rw [hw]
    refine rbw_of_split _ tr3 ?_ htr3d
    intro op hop
    rcases List.mem_append.mp hop with h | h
    · exact htr1p op h
    · exact del_blocks_not_put op
        (remove_blocks_loop_trace old_addr.loc_spans st1 0 op h)

/-- C2 (divergence witness): the scheme dispatch of `Storage::new`
accepts a `file://` URI but rejects the `mem://` URI `mem://foo` with
`InvalidUri`, although the crate's documentation and the
`MemStorage` re-export in `volume/storage/mod.rs` promise a memory
backend. -/
theorem storage_new_scheme_dispatch :
    Storage.new ['m', 'e', 'm', ':', '/', '/', 'f', 'o', 'o'] =
      .error .InvalidUri ∧
    Storage.new ['f', 'i', 'l', 'e', ':', '/', '/', 'a'] =
      .ok (.file ['a'], Storage.mk_new) := by
  constructor <;> rfl

/-- C3: after a successful `put_address(id, A)` a subsequent
`get_address(id)` returns exactly `A`; the write populates the address
cache (whose capacity is 64 as set by `Storage::new`), and the read is
served from it. -/
theorem put_get_address_roundtrip (ser : Addr → Bytes)
    (enc : Bytes → Result Bytes) (dec : Bytes → Result Bytes)
    (deser : Bytes → Result Addr) (st : Storage) (id : Eid) (addr : Addr)
    (st2 : Storage) (tr : List DepotOp)
    (hcap : st.addr_cache.capacity = ADDRESS_CACHE_SIZE)
    (hput : Storage.put_address ser enc st id addr = (.ok (), st2, tr)) :
    (Storage.get_address dec deser st2 id).1 = .ok addr := by
  rcases henc : enc (ser addr) with e | buf
  · rw [Storage.put_address, henc] at hput
    exact absurd hput (by simp)
  · simp only [Storage.put_address, henc, Prod.mk.injEq] at hput
    obtain ⟨-, h2, h3⟩ := hput
    subst h2
    have hfind : assoc_find
        (((id, addr) :: assoc_erase st.addr_cache.entries id).take
          st.addr_cache.capacity) id = some addr := by
      rw [hcap, show ADDRESS_CACHE_SIZE = 63 + 1 from rfl,
        List.take_succ_cons]
      simp [assoc_find]
    simp [Storage.get_address, Lru.get_refresh, Lru.insert, hfind]

/-- Witness for C3: the round-trip on a concrete fresh storage. -/
theorem put_get_address_roundtrip_witness :
    (Storage.get_address (fun b => .ok b) (fun _ => .error .Corrupted)
      (Storage.put_address (fun _ => ([] : Bytes)) (fun b => .ok b)
        Storage.mk_new 0 ⟨[⟨⟨0, 1⟩, 0⟩]⟩).2.1 0).1 =
      .ok ⟨[⟨⟨0, 1⟩, 0⟩]⟩ :=
  put_get_address_roundtrip (fun _ => ([] : Bytes)) (fun b => .ok b)
    (fun b => .ok b) (fun _ => .error .Corrupted) Storage.mk_new 0
    ⟨[⟨⟨0, 1⟩, 0⟩]⟩ _ _ rfl rfl

theorem del_of_get_notfound (dec : Bytes → Result Bytes)
    (deser : Bytes → Result Addr) (st : Storage) (id : Eid)
    (h : (Storage.get_address dec deser st id).1 = .error .NotFound) :
    Storage.del dec deser st id =
      (.ok (), st, (Storage.get_address dec deser st id).2.2) := by
  rcases hg : Storage.get_address dec deser st id with ⟨r, st1, tr1⟩
  have hr : r = .error Error.NotFound := by
    rw [hg] at h
    exact h
  subst hr
  have hst : st1 = st := by
    have h2 := get_address_error_state dec deser st id Error.NotFound
      (by rw [hg])
    rw [hg] at h2
    exact h2
  subst hst
  unfold Storage.del
  rw [hg]
  simp

theorem get_address_of_erased (dec : Bytes → Result Bytes)
    (deser : Bytes → Result Addr) (st : Storage) (id : Eid)
    (hc : assoc_find st.addr_cache.entries id = none)
    (hd : assoc_find st.depot.addrs id = none) :
    (Storage.get_address dec deser st id).1 = .error .NotFound := by
  simp [Storage.get_address, Lru.get_refresh, Depot.get_address, hc, hd]

/-- C10: deleting an entity with no stored address is a successful
no-op: when the address lookup yields `NotFound`, `Storage::del`
returns `Ok` and leaves the state (depot, address cache, frame cache)
unchanged; moreover after any successful `del(id)` a second `del(id)`
succeeds as well. -/
theorem storage_del_missing_noop (dec : Bytes → Result Bytes)
    (deser : Bytes → Result Addr) (st : Storage) (id : Eid)
    (h : (Storage.get_address dec deser st id).1 = .error .NotFound) :
    Storage.del dec deser st id =
      (.ok (), st, (Storage.get_address dec deser st id).2.2) ∧
    (∀ st0 : Storage, (Storage.del dec deser st0 id).1 = .ok () →
      (Storage.del dec deser (Storage.del dec deser st0 id).2.1 id).1 =
        .ok ()) := by
  refine ⟨del_of_get_notfound dec deser st id h, ?_⟩
  intro st0 hok
  rcases hg : Storage.get_address dec deser st0 id with ⟨r, st1, tr1⟩
  rcases r with e | addr
  · by_cases he : e = Error.NotFound
    · subst he
      have h1 : Storage.del dec deser st0 id = (.ok (), st1, tr1) := by
        unfold Storage.del
        rw [hg]
        simp
      have hst1 : st1 = st0 := by
        have h2 := get_address_error_state dec deser st0 id Error.NotFound
          (by rw [hg])
        rw [hg] at h2
        exact h2
      rw [h1, hst1, h1]
    · have h1 : Storage.del dec deser st0 id = (.error e, st1, tr1) := by
        unfold Storage.del
        rw [hg]
        simp [he]
      rw [h1] at hok
      exact absurd hok (by simp)
  · have h1 : Storage.del dec deser st0 id =
        (.ok (),
          { (st1.remove_address_blocks addr).1 with
            depot := (st1.remove_address_blocks addr).1.depot.del_address id,
            addr_cache :=
              (st1.remove_address_blocks addr).1.addr_cache.remove id },
          tr1 ++ (st1.remove_address_blocks addr).2 ++ [.delAddress id]) := by
      unfold Storage.del
      rw [hg]
    rw [h1]
    have hnf : (Storage.get_address dec deser
        { (st1.remove_address_blocks addr).1 with
          depot := (st1.remove_address_blocks addr).1.depot.del_address id,
          addr_cache :=
            (st1.remove_address_blocks addr).1.addr_cache.remove id }
        id).1 = .error .NotFound := by
      apply get_address_of_erased
      · simp [Lru.remove, assoc_find_erase_self]
      · simp [Depot.del_address, assoc_find_erase_self]
    have h3 := del_of_get_notfound dec deser _ id hnf
    rw [h3]

/-- Witness for C10: deleting an id that was never stored, on a fresh
storage, twice. -/
theorem storage_del_missing_noop_witness :
    Storage.del (fun b => .ok b) (fun _ => .error .Corrupted)
        Storage.mk_new 0 =
      (.ok (), Storage.mk_new,
        (Storage.get_address (fun b => .ok b) (fun _ => .error .Corrupted)
          Storage.mk_new 0).2.2) ∧
    (Storage.del (fun b => .ok b) (fun _ => .error .Corrupted)
      (Storage.del (fun b => .ok b) (fun _ => .error .Corrupted)
        Storage.mk_new 0).2.1 0).1 = .ok () :=
  ⟨(storage_del_missing_noop (fun b => .ok b) (fun _ => .error .Corrupted)
      Storage.mk_new 0 rfl).1,
    (storage_del_missing_noop (fun b => .ok b) (fun _ => .error .Corrupted)
      Storage.mk_new 0 rfl).2 Storage.mk_new rfl⟩

/- ------------------------------------------------------------------ -/
/- Repository front end (src/repo.rs, src/fs/mod.rs)                  -/
/- ------------------------------------------------------------------ -/

/-- Paths and strings are modelled as character lists. -/
abbrev Str := List Char

/-- Password-hash operation cost (`OpsLimit`).  Modelled from the spec:
`util/crypto.rs` is absent; the spec lists
`{Interactive, Moderate, Sensitive}`. -/
inductive OpsLimit where
  | Interactive
  | Moderate
  | Sensitive
  deriving DecidableEq, Repr

/-- Password-hash memory cost (`MemLimit`), modelled from the spec. -/
inductive MemLimit where
  | Interactive
  | Moderate
  | Sensitive
  deriving DecidableEq, Repr

/-- KDF cost pair (`Cost`), modelled from the spec. -/
structure Cost where
  ops_limit : OpsLimit
  mem_limit : MemLimit
  deriving DecidableEq, Repr

/-- The `Cost::new`. -/
def Cost.new (ops_limit : OpsLimit) (mem_limit : MemLimit) : Cost :=
  { ops_limit := ops_limit, mem_limit := mem_limit }

/-- The `Cost::default`: `Interactive` for both, per the `RepoOpener`
documentation. -/
def Cost.default : Cost :=
  { ops_limit := .Interactive, mem_limit := .Interactive }

/-- AEAD selection, modelled from the spec: `{Aes, Xchacha}`. -/
inductive Cipher where
  | Aes
  | Xchacha
  deriving DecidableEq, Repr

/-- The `DEFAULT_VERSION_LIMIT` (src/fs/mod.rs): 10. -/
def DEFAULT_VERSION_LIMIT : Nat := 10

/-- The `Options` struct of src/fs/mod.rs: per-file version cap and
dedup flag.  `version_limit` is a `u8`; its value is a natural below
256. -/
structure Options where
  version_limit : Nat
  dedup_chunk : Bool
  deriving DecidableEq, Repr

/-- The `Options::default` (src/fs/mod.rs): version limit
`DEFAULT_VERSION_LIMIT`, dedup on. -/
def Options.default : Options :=
  { version_limit := DEFAULT_VERSION_LIMIT, dedup_chunk := true }

/-- The `Config` struct of src/fs/mod.rs. -/
structure Config where
  cost : Cost
  cipher : Cipher
  compress : Bool
  opts : Options
  deriving DecidableEq, Repr

/-- The `Config::default` (src/fs/mod.rs): the cipher depends on the
hardware AES probe, which is environment state; it is passed in as a
flag. -/
def Config.default (aes_hw_available : Bool) : Config :=
  { cost := Cost.default,
    cipher := if aes_hw_available then .Aes else .Xchacha,
    compress := false,
    opts := Options.default }

/-- The `FileType` of the fnode layer, modelled from the spec:
`Kind ∈ {File, Dir}`. -/
inductive FileType where
  | File
  | Dir
  deriving DecidableEq, Repr

/-- File node.  Modelled from the spec: `src/fs/fnode.rs` is declared
but absent; the spec gives a kind, per-file options and a current
length (the version list is irrelevant to the claims settled here). -/
structure Fnode where
  kind : FileType
  opts : Options
  curr_len : Nat
  deriving DecidableEq, Repr

/-- File system state.  Modelled from the spec: `src/fs/fs.rs` is
declared but absent; the spec describes a read-only flag,
repository-wide default options and a path-indexed namespace of
fnodes (the tree structure is collapsed to a path map, which is all
the settled claims observe). -/
structure Fs where
  read_only : Bool
  opts : Options
  fnodes : List (Str × Fnode)
  deriving DecidableEq, Repr

/-- The `Fs::is_read_only`. -/
def Fs.is_read_only (fs : Fs) : Bool :=
  fs.read_only

/-- The `Fs::get_opts`: the repository default options. -/
def Fs.get_opts (fs : Fs) : Options :=
  fs.opts

/-- The `Fs::resolve`, modelled from the spec: path lookup, `NotFound` when
absent. -/
def Fs.resolve (fs : Fs) (p : Str) : Result Fnode :=
  match assoc_find fs.fnodes p with
  | some f => .ok f
  | none => .error .NotFound

/-- The `Fs::create_fnode`, modelled from the spec: a new empty fnode is
registered under the path; an existing path is `AlreadyExists`. -/
def Fs.create_fnode (fs : Fs) (p : Str) (ftype : FileType)
    (opts : Options) : Result (Fnode × Fs) :=
  match assoc_find fs.fnodes p with
  | some _ => .error .AlreadyExists
  | none =>
      let f : Fnode := { kind := ftype, opts := opts, curr_len := 0 }
      .ok (f, { fs with fnodes := (p, f) :: fs.fnodes })

/-- The `Fs::open_fnode`, modelled from the spec: resolves the path and
hands out the fnode (standing in for the open handle). -/
def Fs.open_fnode (fs : Fs) (p : Str) : Result Fnode :=
  fs.resolve p

/-- The `File::set_len` through an open handle, modelled from the spec:
truncation produces a new current version of the given length. -/
def Fs.set_len (fs : Fs) (p : Str) (n : Nat) : Result Unit × Fs :=
  match assoc_find fs.fnodes p with
  | some f =>
      (.ok (),
        { fs with
          fnodes := (p, { f with curr_len := n }) :: assoc_erase fs.fnodes p })
  | none => (.error .NotFound, fs)

/-- The `OpenOptions` struct of src/repo.rs. -/
structure OpenOptions where
  read : Bool
  write : Bool
  append : Bool
  truncate : Bool
  create : Bool
  create_new : Bool
  version_limit : Option Nat
  dedup_chunk : Option Bool
  deriving DecidableEq, Repr

/-- The `OpenOptions::new`: all flags false except `read`. -/
def OpenOptions.new : OpenOptions :=
  { read := true, write := false, append := false, truncate := false,
    create := false, create_new := false, version_limit := none,
    dedup_chunk := none }

/-- The `OpenOptions::write`. -/
def OpenOptions.set_write (o : OpenOptions) (v : Bool) : OpenOptions :=
  { o with write := v }

/-- The `OpenOptions::append`: also turns on `write`. -/
def OpenOptions.set_append (o : OpenOptions) (v : Bool) : OpenOptions :=
  if v then { o with append := v, write := true } else { o with append := v }

/-- The `OpenOptions::truncate`: also turns on `write`. -/
def OpenOptions.set_truncate (o : OpenOptions) (v : Bool) : OpenOptions :=
  if v then { o with truncate := v, write := true }
  else { o with truncate := v }

/-- The `OpenOptions::create`: also turns on `write`. -/
def OpenOptions.set_create (o : OpenOptions) (v : Bool) : OpenOptions :=
  if v then { o with create := v, write := true } else { o with create := v }

/-- The `OpenOptions::create_new`: also turns on `create` and `write`. -/
def OpenOptions.set_create_new (o : OpenOptions) (v : Bool) : OpenOptions :=
  if v then { o with create_new := v, create := true, write := true }
  else { o with create_new := v }

/-- The `OpenOptions::version_limit`. -/
def OpenOptions.set_version_limit (o : OpenOptions) (vl : Nat) :
    OpenOptions :=
  { o with version_limit := some vl }

/-- The per-file options actually used when a file is created: the
repository defaults overridden by any explicitly set open options
(the two `if let Some` blocks of `open_file_with_options`). -/
def effective_opts (open_opts : OpenOptions) (opts : Options) : Options :=
  let o1 :=
    match open_opts.version_limit with
    | some vl => { opts with version_limit := vl }
    | none => opts
  match open_opts.dedup_chunk with
  | some d => { o1 with dedup_chunk := d }
  | none => o1

/-- Open file handle (`File`): position and access mode over the
fnode; the handle is identified by its path in this model. -/
structure File where
  path : Str
  pos : Nat
  can_read : Bool
  can_write : Bool
  deriving DecidableEq, Repr

/-- Tail of `open_file_with_options` after the fnode exists: open the
fnode, reject directories, seek to the end iff `append`, build the
`File`, and apply `truncate` when the file is non-empty. -/
def open_file_resolved (fs : Fs) (path : Str) (open_opts : OpenOptions) :
    Result File × Fs :=
  match fs.open_fnode path with
  | .error e => (.error e, fs)
  | .ok fnode =>
      if fnode.kind = FileType.Dir then (.error .IsDir, fs)
      else
        let curr_len := fnode.curr_len
        let pos := if open_opts.append then curr_len else 0
        let file : File :=
          { path := path, pos := pos, can_read := open_opts.read,
            can_write := open_opts.write }
        if open_opts.truncate && decide (0 < curr_len) then
          match Fs.set_len fs path 0 with
          | (.ok _, fs2) => (.ok file, fs2)
          | (.error e, fs2) => (.error e, fs2)
        else (.ok file, fs)

/-- The `open_file_with_options` (src/repo.rs lines 406-464): any mutating
option on a read-only volume is rejected with `ReadOnly` before
anything is resolved or created; otherwise resolve the path,
apply `create_new` / `create` semantics and open the fnode. -/
def open_file_with_options (fs : Fs) (path : Str)
    (open_opts : OpenOptions) : Result File × Fs :=
  if fs.is_read_only &&
      (open_opts.write || open_opts.append || open_opts.truncate ||
        open_opts.create || open_opts.create_new) then
    (.error .ReadOnly, fs)
  else
    match fs.resolve path with
    | .ok _ =>
        if open_opts.create_new then (.error .AlreadyExists, fs)
        else open_file_resolved fs path open_opts
    | .error e =>
        if e = Error.NotFound && open_opts.create then
          match fs.create_fnode path FileType.File
              (effective_opts open_opts fs.get_opts) with
          | .error e2 => (.error e2, fs)
          | .ok (_, fs2) => open_file_resolved fs2 path open_opts
        else (.error e, fs)

/-- The `Repo` struct of src/repo.rs: an optional `Fs`; `None` is the
closed state. -/
structure Repo where
  fs : Option Fs
  deriving Repr

/-- The `OpenOptions::open` without the version-limit validation (the
`match repo.fs` body). -/
def OpenOptions.open_on_fs (self : OpenOptions) (repo : Repo)
    (path : Str) : Result File × Repo :=
  match repo.fs with
  | some fs =>
      let r := open_file_with_options fs path self
      (r.1, { fs := some r.2 })
  | none => (.error .Closed, repo)

/-- The `OpenOptions::open` (src/repo.rs lines 304-317): an explicitly set
version limit of 0 is `InvalidArgument`; a closed repository is
`Closed`. -/
def OpenOptions.open (self : OpenOptions) (repo : Repo) (path : Str) :
    Result File × Repo :=
  if self.version_limit = some 0 then (.error .InvalidArgument, repo)
  else self.open_on_fs repo path

/-- The `RepoOpener` struct of src/repo.rs. -/
structure RepoOpener where
  cfg : Config
  create : Bool
  create_new : Bool
  read_only : Bool
  deriving DecidableEq, Repr

/-- The `RepoOpener::new` / `default`; the hardware-AES flag feeds
`Config::default`. -/
def RepoOpener.new (aes_hw_available : Bool) : RepoOpener :=
  { cfg := Config.default aes_hw_available, create := false,
    create_new := false, read_only := false }

/-- The `RepoOpener::version_limit`. -/
def RepoOpener.set_version_limit (o : RepoOpener) (vl : Nat) :
    RepoOpener :=
  { o with cfg := { o.cfg with opts := { o.cfg.opts with
      version_limit := vl } } }

/-- The `RepoOpener::create`. -/
def RepoOpener.set_create (o : RepoOpener) (v : Bool) : RepoOpener :=
  { o with create := v }

/-- The `RepoOpener::create_new`: also turns on `create`. -/
def RepoOpener.set_create_new (o : RepoOpener) (v : Bool) : RepoOpener :=
  if v then { o with create_new := v, create := true }
  else { o with create_new := v }

/-- The `RepoOpener::read_only`. -/
def RepoOpener.set_read_only (o : RepoOpener) (v : Bool) : RepoOpener :=
  { o with read_only := v }

/-- The `RepoOpener::open` after the version-limit validation.  The
`Repo::exists` / `Repo::open` / `Repo::create` back ends go through
the absent `Fs` layer and are passed as functions. -/
def RepoOpener.open_checked (repoExists : Str → Result Bool)
    (repoOpenFn : Str → Str → Bool → Result Repo)
    (repoCreateFn : Str → Str → Config → Result Repo)
    (self : RepoOpener) (uri pwd : Str) : Result Repo :=
  if self.create then
    if self.read_only then .error .InvalidArgument
    else
      match repoExists uri with
      | .error e => .error e
      | .ok true =>
          if self.create_new then .error .AlreadyExists
          else repoOpenFn uri pwd self.read_only
      | .ok false => repoCreateFn uri pwd self.cfg
  else repoOpenFn uri pwd self.read_only

/-- The `RepoOpener::open` (src/repo.rs lines 165-186): a configured
version limit of 0 is rejected with `InvalidArgument` up front. -/
def RepoOpener.open (repoExists : Str → Result Bool)
    (repoOpenFn : Str → Str → Bool → Result Repo)
    (repoCreateFn : Str → Str → Config → Result Repo)
    (self : RepoOpener) (uri pwd : Str) : Result Repo :=
  if self.cfg.opts.version_limit = 0 then .error .InvalidArgument
  else RepoOpener.open_checked repoExists repoOpenFn repoCreateFn self
    uri pwd

/-- Directory entry returned by `read_dir`; modelled from the spec. -/
structure DirEntry where
  path : Str
  file_name : Str
  deriving DecidableEq, Repr

/-- Metadata returned by `Repo::metadata`; modelled from the spec. -/
structure Metadata where
  kind : FileType
  len : Nat
  deriving DecidableEq, Repr

/-- One entry of `Repo::history` (the `Version` struct); modelled from
the spec. -/
structure FileVersion where
  num : Nat
  content_len : Nat
  deriving DecidableEq, Repr

/-- Repository metadata (`RepoInfo`); the volume fields live in the
absent crypto/volume metadata, so the model keeps the fields the
claims can observe. -/
structure RepoInfo where
  version_limit : Nat
  dedup_chunk : Bool
  compress : Bool
  read_only : Bool
  deriving DecidableEq, Repr

/-- The `Repo::close` (src/repo.rs lines 566-574): `fs.take()` leaves
`None` behind; closing an already closed repository is `Ok`. -/
def Repo.close (fsClose : Fs → Result Unit) (r : Repo) :
    Result Unit × Repo :=
  match r.fs with
  | some fs => (fsClose fs, { fs := none })
  | none => (.ok (), r)

/-- The `Repo::info`. -/
def Repo.info (fsInfo : Fs → RepoInfo) (r : Repo) : Result RepoInfo :=
  match r.fs with
  | some fs => .ok (fsInfo fs)
  | none => .error .Closed

/-- The `Repo::reset_password`. -/
def Repo.reset_password (fsReset : Fs → Str → Str → Cost → Result Unit)
    (r : Repo) (old_pwd new_pwd : Str) (ops_limit : OpsLimit)
    (mem_limit : MemLimit) : Result Unit :=
  match r.fs with
  | some fs => fsReset fs old_pwd new_pwd (Cost.new ops_limit mem_limit)
  | none => .error .Closed

/-- The `Repo::path_exists`. -/
def Repo.path_exists (r : Repo) (p : Str) : Result Bool :=
  match r.fs with
  | some fs =>
      .ok (match fs.resolve p with
        | .ok _ => true
        | .error _ => false)
  | none => .error .Closed

/-- The `Repo::is_file`. -/
def Repo.is_file (r : Repo) (p : Str) : Result Bool :=
  match r.fs with
  | some fs =>
      match fs.resolve p with
      | .ok f => .ok (decide (f.kind = FileType.File))
      | .error _ => .ok false
  | none => .error .Closed

/-- The `Repo::is_dir`. -/
def Repo.is_dir (r : Repo) (p : Str) : Result Bool :=
  match r.fs with
  | some fs =>
      match fs.resolve p with
      | .ok f => .ok (decide (f.kind = FileType.Dir))
      | .error _ => .ok false
  | none => .error .Closed

/-- The `Repo::create_file`: `create(true).truncate(true)` over
`OpenOptions::open`, with the early `Closed` check. -/
def Repo.create_file (r : Repo) (p : Str) : Result File × Repo :=
  if r.fs.isNone then (.error .Closed, r)
  else
    (((OpenOptions.new.set_create true).set_truncate true)).open r p

/-- The `Repo::open_file`: default read-only options over
`OpenOptions::open`, with the early `Closed` check. -/
def Repo.open_file (r : Repo) (p : Str) : Result File × Repo :=
  if r.fs.isNone then (.error .Closed, r)
  else OpenOptions.new.open r p

/-- The `Repo::create_dir`. -/
def Repo.create_dir (r : Repo) (p : Str) : Result Unit × Repo :=
  match r.fs with
  | some fs =>
      match fs.create_fnode p FileType.Dir Options.default with
      | .ok (_, fs2) => (.ok (), { fs := some fs2 })
      | .error e => (.error e, r)
  | none => (.error .Closed, r)

/-- The `Repo::create_dir_all`; the recursive ancestor creation lives in
the absent `Fs` layer and is passed as a function. -/
def Repo.create_dir_all (fsCreateDirAll : Fs → Str → Result Unit × Fs)
    (r : Repo) (p : Str) : Result Unit × Repo :=
  match r.fs with
  | some fs =>
      let r2 := fsCreateDirAll fs p
      (r2.1, { fs := some r2.2 })
  | none => (.error .Closed, r)

/-- The `Repo::read_dir`. -/
def Repo.read_dir (fsReadDir : Fs → Str → Result (List DirEntry))
    (r : Repo) (p : Str) : Result (List DirEntry) :=
  match r.fs with
  | some fs => fsReadDir fs p
  | none => .error .Closed

/-- The `Repo::metadata`. -/
def Repo.metadata (fsMetadata : Fs → Str → Result Metadata) (r : Repo)
    (p : Str) : Result Metadata :=
  match r.fs with
  | some fs => fsMetadata fs p
  | none => .error .Closed

/-- The `Repo::history`. -/
def Repo.history (fsHistory : Fs → Str → Result (List FileVersion))
    (r : Repo) (p : Str) : Result (List FileVersion) :=
  match r.fs with
  | some fs => fsHistory fs p
  | none => .error .Closed

/-- The `Repo::copy`. -/
def Repo.copy (fsCopy : Fs → Str → Str → Result Unit × Fs) (r : Repo)
    (from_p to_p : Str) : Result Unit × Repo :=
  match r.fs with
  | some fs =>
      let r2 := fsCopy fs from_p to_p
      (r2.1, { fs := some r2.2 })
  | none => (.error .Closed, r)

/-- The `Repo::remove_file`. -/
def Repo.remove_file (fsRemoveFile : Fs → Str → Result Unit × Fs)
    (r : Repo) (p : Str) : Result Unit × Repo :=
  match r.fs with
  | some fs =>
      let r2 := fsRemoveFile fs p
      (r2.1, { fs := some r2.2 })
  | none => (.error .Closed, r)

/-- The `Repo::remove_dir`. -/
def Repo.remove_dir (fsRemoveDir : Fs → Str → Result Unit × Fs)
    (r : Repo) (p : Str) : Result Unit × Repo :=
  match r.fs with
  | some fs =>
      let r2 := fsRemoveDir fs p
      (r2.1, { fs := some r2.2 })
  | none => (.error .Closed, r)

/-- The `Repo::remove_dir_all`. -/
def Repo.remove_dir_all (fsRemoveDirAll : Fs → Str → Result Unit × Fs)
    (r : Repo) (p : Str) : Result Unit × Repo :=
  match r.fs with
  | some fs =>
      let r2 := fsRemoveDirAll fs p
      (r2.1, { fs := some r2.2 })
  | none => (.error .Closed, r)

/-- The `Repo::rename`. -/
def Repo.rename (fsRename : Fs → Str → Str → Result Unit × Fs)
    (r : Repo) (from_p to_p : Str) : Result Unit × Repo :=
  match r.fs with
  | some fs =>
      let r2 := fsRename fs from_p to_p
      (r2.1, { fs := some r2.2 })
  | none => (.error .Closed, r)

/-- C4: any mutating open option (`write`, `append`, `truncate`,
`create`, `create_new`) on a read-only volume makes
`open_file_with_options` fail with `ReadOnly`, and the file system
state is returned unchanged — no fnode is created or modified. -/
theorem open_readonly_rejects_mutating (fs : Fs) (path : Str)
    (oo : OpenOptions) (hro : fs.read_only = true)
    (hmut : (oo.write || oo.append || oo.truncate || oo.create ||
      oo.create_new) = true) :
    open_file_with_options fs path oo = (.error .ReadOnly, fs) := by
  simp [open_file_with_options, Fs.is_read_only, hro, hmut]

/-- A concrete regular-file fnode used by witnesses. -/
def sample_fnode : Fnode :=
  { kind := FileType.File, opts := Options.default, curr_len := 0 }

/-- A concrete read-only file system holding one file, used by
witnesses. -/
def sample_ro_fs : Fs :=
  { read_only := true, opts := Options.default,
    fnodes := [(['a'], sample_fnode)] }

/-- A concrete writable empty file system, used by witnesses. -/
def sample_rw_fs : Fs :=
  { read_only := false, opts := Options.default, fnodes := [] }

/-- Witness for C4: opening with `write` on a concrete read-only
volume. -/
theorem open_readonly_rejects_mutating_witness :
    open_file_with_options sample_ro_fs ['a']
        (OpenOptions.new.set_write true) =
      (.error .ReadOnly, sample_ro_fs) :=
  open_readonly_rejects_mutating sample_ro_fs ['a']
    (OpenOptions.new.set_write true) rfl rfl

/-- C5: on a closed repository (`fs` is `None`) every public entry
point — `info`, `reset_password`, `path_exists`, `is_file`, `is_dir`,
`create_file`, `open_file`, `create_dir`, `create_dir_all`,
`read_dir`, `metadata`, `history`, `copy`, `remove_file`,
`remove_dir`, `remove_dir_all`, `rename` — returns `Closed`,
whatever the underlying file-system layer does. -/
theorem repo_closed_entry_points (fsInfo : Fs → RepoInfo)
    (fsReset : Fs → Str → Str → Cost → Result Unit)
    (fsCreateDirAll : Fs → Str → Result Unit × Fs)
    (fsReadDir : Fs → Str → Result (List DirEntry))
    (fsMetadata : Fs → Str → Result Metadata)
    (fsHistory : Fs → Str → Result (List FileVersion))
    (fsCopy : Fs → Str → Str → Result Unit × Fs)
    (fsRemoveFile : Fs → Str → Result Unit × Fs)
    (fsRemoveDir : Fs → Str → Result Unit × Fs)
    (fsRemoveDirAll : Fs → Str → Result Unit × Fs)
    (fsRename : Fs → Str → Str → Result Unit × Fs)
    (r : Repo) (p q old_pwd new_pwd : Str) (ops_limit : OpsLimit)
    (mem_limit : MemLimit) (h : r.fs = none) :
    Repo.info fsInfo r = .error .Closed ∧
    Repo.reset_password fsReset r old_pwd new_pwd ops_limit mem_limit =
      .error .Closed ∧
    Repo.path_exists r p = .error .Closed ∧
    Repo.is_file r p = .error .Closed ∧
    Repo.is_dir r p = .error .Closed ∧
    Repo.create_file r p = (.error .Closed, r) ∧
    Repo.open_file r p = (.error .Closed, r) ∧
    Repo.create_dir r p = (.error .Closed, r) ∧
    Repo.create_dir_all fsCreateDirAll r p = (.error .Closed, r) ∧
    Repo.read_dir fsReadDir r p = .error .Closed ∧
    Repo.metadata fsMetadata r p = .error .Closed ∧
    Repo.history fsHistory r p = .error .Closed ∧
    Repo.copy fsCopy r p q = (.error .Closed, r) ∧
    Repo.remove_file fsRemoveFile r p = (.error .Closed, r) ∧
    Repo.remove_dir fsRemoveDir r p = (.error .Closed, r) ∧
    Repo.remove_dir_all fsRemoveDirAll r p = (.error .Closed, r) ∧
    Repo.rename fsRename r p q = (.error .Closed, r) := by
  obtain ⟨fsOpt⟩ := r
  have h2 : fsOpt = none := h
  subst h2
  exact ⟨rfl, rfl, rfl, rfl, rfl, rfl, rfl, rfl, rfl, rfl, rfl, rfl,
    rfl, rfl, rfl, rfl, rfl⟩

/-- Witness for C5: a concrete closed repository with concrete
file-system delegates. -/
theorem repo_closed_entry_points_witness :
    Repo.info (fun _ => ⟨10, true, false, false⟩) ⟨none⟩ =
      .error .Closed ∧
    Repo.reset_password (fun _ _ _ _ => .ok ()) ⟨none⟩ [] [] .Interactive
      .Interactive = .error .Closed ∧
    Repo.path_exists ⟨none⟩ ['a'] = .error .Closed ∧
    Repo.is_file ⟨none⟩ ['a'] = .error .Closed ∧
    Repo.is_dir ⟨none⟩ ['a'] = .error .Closed ∧
    Repo.create_file ⟨none⟩ ['a'] = (.error .Closed, ⟨none⟩) ∧
    Repo.open_file ⟨none⟩ ['a'] = (.error .Closed, ⟨none⟩) ∧
    Repo.create_dir ⟨none⟩ ['a'] = (.error .Closed, ⟨none⟩) ∧
    Repo.create_dir_all (fun fs _ => (.ok (), fs)) ⟨none⟩ ['a'] =
      (.error .Closed, ⟨none⟩) ∧
    Repo.read_dir (fun _ _ => .ok []) ⟨none⟩ ['a'] = .error .Closed ∧
    Repo.metadata (fun _ _ => .error .NotFound) ⟨none⟩ ['a'] =
      .error .Closed ∧
    Repo.history (fun _ _ => .ok []) ⟨none⟩ ['a'] = .error .Closed ∧
    Repo.copy (fun fs _ _ => (.ok (), fs)) ⟨none⟩ ['a'] ['b'] =
      (.error .Closed, ⟨none⟩) ∧
    Repo.remove_file (fun fs _ => (.ok (), fs)) ⟨none⟩ ['a'] =
      (.error .Closed, ⟨none⟩) ∧
    Repo.remove_dir (fun fs _ => (.ok (), fs)) ⟨none⟩ ['a'] =
      (.error .Closed, ⟨none⟩) ∧
    Repo.remove_dir_all (fun fs _ => (.ok (), fs)) ⟨none⟩ ['a'] =
      (.error .Closed, ⟨none⟩) ∧
    Repo.rename (fun fs _ _ => (.ok (), fs)) ⟨none⟩ ['a'] ['b'] =
      (.error .Closed, ⟨none⟩) :=
  repo_closed_entry_points (fun _ => ⟨10, true, false, false⟩)
    (fun _ _ _ _ => .ok ()) (fun fs _ => (.ok (), fs))
    (fun _ _ => .ok []) (fun _ _ => .error .NotFound)
    (fun _ _ => .ok []) (fun fs _ _ => (.ok (), fs))
    (fun fs _ => (.ok (), fs)) (fun fs _ => (.ok (), fs))
    (fun fs _ => (.ok (), fs)) (fun fs _ _ => (.ok (), fs))
    ⟨none⟩ ['a'] ['b'] [] [] .Interactive .Interactive rfl

/-- C6: the per-file version cap: `RepoOpener::open` rejects a
configured limit of 0 with `InvalidArgument` and accepts any nonzero
`u8` value (the validation passes and the rest of `open` runs);
`OpenOptions::open` rejects an explicitly set limit of 0 and accepts
any nonzero value; the repository default is 10, and a file created
without an explicit limit inherits the repository's value while an
explicit limit overrides it. -/
theorem version_limit_policy :
    (∀ (re : Str → Result Bool) (ro : Str → Str → Bool → Result Repo)
      (rc : Str → Str → Config → Result Repo) (o : RepoOpener)
      (uri pwd : Str), o.cfg.opts.version_limit = 0 →
        RepoOpener.open re ro rc o uri pwd = .error .InvalidArgument) ∧
    (∀ (re : Str → Result Bool) (ro : Str → Str → Bool → Result Repo)
      (rc : Str → Str → Config → Result Repo) (o : RepoOpener)
      (uri pwd : Str), 1 ≤ o.cfg.opts.version_limit →
        o.cfg.opts.version_limit ≤ 255 →
        RepoOpener.open re ro rc o uri pwd =
          RepoOpener.open_checked re ro rc o uri pwd) ∧
    Options.default.version_limit = 10 ∧
    (∀ (oo : OpenOptions) (repo : Repo) (path : Str),
      oo.version_limit = some 0 →
        OpenOptions.open oo repo path = (.error .InvalidArgument, repo)) ∧
    (∀ (oo : OpenOptions) (repo : Repo) (path : Str) (vl : Nat),
      oo.version_limit = some vl → 1 ≤ vl → vl ≤ 255 →
        OpenOptions.open oo repo path = oo.open_on_fs repo path) ∧
    (∀ (oo : OpenOptions) (opts : Options), oo.version_limit = none →
      (effective_opts oo opts).version_limit = opts.version_limit) ∧
    (∀ (oo : OpenOptions) (opts : Options) (vl : Nat),
      oo.version_limit = some vl →
        (effective_opts oo opts).version_limit = vl) := by
  refine ⟨?_, ?_, rfl, ?_, ?_, ?_, ?_⟩
  · intro re ro rc o uri pwd h
    simp [RepoOpener.open, h]
  · intro re ro rc o uri pwd h1 h2
    rw [RepoOpener.open, if_neg (by omega)]
  · intro oo repo path h
    simp [OpenOptions.open, h]
  · intro oo repo path vl h h1 h2
    rw [OpenOptions.open, if_neg (by rw [h]; simp; omega)]
  · intro oo opts h
    cases hd : oo.dedup_chunk <;> simp [effective_opts, h, hd]
  · intro oo opts vl h
    cases hd : oo.dedup_chunk <;> simp [effective_opts, h, hd]

/-- Witness for C6: the validation at concrete openers, options and
values. -/
theorem version_limit_policy_witness :
    RepoOpener.open (fun _ => .ok false) (fun _ _ _ => .error .NotFound)
      (fun _ _ _ => .ok ⟨none⟩)
      ((RepoOpener.new false).set_version_limit 0) [] [] =
      .error .InvalidArgument ∧
    RepoOpener.open (fun _ => .ok false) (fun _ _ _ => .error .NotFound)
      (fun _ _ _ => .ok ⟨none⟩) (RepoOpener.new false) [] [] =
      RepoOpener.open_checked (fun _ => .ok false)
        (fun _ _ _ => .error .NotFound) (fun _ _ _ => .ok ⟨none⟩)
        (RepoOpener.new false) [] [] ∧
    Options.default.version_limit = 10 ∧
    OpenOptions.open (OpenOptions.new.set_version_limit 0) ⟨none⟩ ['a'] =
      (.error .InvalidArgument, ⟨none⟩) ∧
    OpenOptions.open (OpenOptions.new.set_version_limit 7) ⟨none⟩ ['a'] =
      (OpenOptions.new.set_version_limit 7).open_on_fs ⟨none⟩ ['a'] ∧
    (effective_opts OpenOptions.new Options.default).version_limit =
      Options.default.version_limit ∧
    (effective_opts (OpenOptions.new.set_version_limit 7)
      Options.default).version_limit = 7 :=
  ⟨version_limit_policy.1 _ _ _ ((RepoOpener.new false).set_version_limit 0)
      [] [] rfl,
    version_limit_policy.2.1 _ _ _ (RepoOpener.new false) [] []
      (by decide) (by decide),
    version_limit_policy.2.2.1,
    version_limit_policy.2.2.2.1 (OpenOptions.new.set_version_limit 0)
      ⟨none⟩ ['a'] rfl,
    version_limit_policy.2.2.2.2.1 (OpenOptions.new.set_version_limit 7)
      ⟨none⟩ ['a'] 7 rfl (by decide) (by decide),
    version_limit_policy.2.2.2.2.2.1 OpenOptions.new Options.default rfl,
    version_limit_policy.2.2.2.2.2.2 (OpenOptions.new.set_version_limit 7)
      Options.default 7 rfl⟩

/-- C7: `Repo::close` is idempotent: after any `close`, the repository
holds no file system, so a second `close` — and `close` on an already
closed repository generally — returns `Ok`. -/
theorem repo_close_idempotent (fsClose : Fs → Result Unit) (r : Repo) :
    (Repo.close fsClose (Repo.close fsClose r).2).1 = .ok () ∧
    (r.fs = none → Repo.close fsClose r = (.ok (), r)) := by
  obtain ⟨fsOpt⟩ := r
  cases fsOpt with
  | none => exact ⟨rfl, fun _ => rfl⟩
  | some fs =>
    refine ⟨rfl, ?_⟩
    intro h
    exact absurd h (by simp)

/-- Witness for C7: closing a concrete open repository twice, and
closing a closed one. -/
theorem repo_close_idempotent_witness :
    (Repo.close (fun _ => .ok ())
      (Repo.close (fun _ => .ok ()) ⟨some sample_rw_fs⟩).2).1 = .ok () ∧
    Repo.close (fun _ => .ok ()) ⟨none⟩ = (.ok (), (⟨none⟩ : Repo)) :=
  ⟨(repo_close_idempotent (fun _ => .ok ()) ⟨some sample_rw_fs⟩).1,
    (repo_close_idempotent (fun _ => .ok ()) ⟨none⟩).2 rfl⟩

end F2ufs
